import Mathlib

/-!
Verification of the message-processing pipeline in `src/app/processor.py`
(repository `finsite/stock-analysis-beta`).

The pipeline is: `validate_input_message` (external schema check, then a
required-key check, each raising `ValueError` on failure), then
`compute_beta_signal` (builds `{"symbol": ..., "timestamp": ...,
"beta_score": 0.85}`), then `process_message` (rebuilds the message with
`data` replaced by the Python merge `{**validated["data"], **beta_data}`).

Python dictionaries are embedded as association lists over `String` keys
with JSON-like values; lookup takes the first matching entry, which agrees
with Python dictionaries (whose keys are unique).  The external schema
capability `validate_message_schema` lives in `app.utils.validate_data`,
outside the sources at hand; it is passed in as an abstract boolean
predicate `schemaOk`, so every theorem holds for every possible schema.
Logging is embedded as explicit state passing of a trace list; exceptions
as `Except`.
-/

/-- A Python value as far as this pipeline observes it: strings, numbers
(Python floats such as `0.85` appear only as literal constants here, so
they are embedded as rationals), booleans, `None`, and nested string-keyed
dictionaries. -/
inductive Value where
  | str : String → Value
  | num : ℚ → Value
  | boolean : Bool → Value
  | none : Value
  | obj : List (String × Value) → Value

/-- A Python `dict[str, Any]`: an association list of string keys and values. -/
abbrev Dict := List (String × Value)

/-- First-match lookup, the mapping denoted by a Python dictionary. -/
def dictGet? : Dict → String → Option Value
  | [], _ => Option.none
  | (k', v) :: rest, k => if k' = k then some v else dictGet? rest k

/-- Python `k in d`. -/
def dictContains (d : Dict) (k : String) : Bool :=
  (dictGet? d k).isSome

/-- The key list of a dictionary (Python `d.keys()`). -/
def dictKeys (d : Dict) : List String :=
  d.map Prod.fst

/-- The errors the pipeline can raise: `ValueError` (both validation
failures), `KeyError` (Python subscript on a missing key), and `TypeError`
(Python `**x` unpacking of a non-mapping). -/
inductive PyError where
  | valueError : String → PyError
  | keyError : String → PyError
  | typeError : String → PyError
deriving DecidableEq

/-- Python `d[k]`: the value at `k`, or `KeyError` when absent. -/
def getItem (d : Dict) (k : String) : Except PyError Value :=
  match dictGet? d k with
  | some v => Except.ok v
  | Option.none => Except.error (PyError.keyError k)

/-- Python `**v` in a dict display: `v` must be a mapping. -/
def asDict : Value → Except PyError Dict
  | Value.obj d => Except.ok d
  | _ => Except.error (PyError.typeError "argument after ** must be a mapping")

/-- Python `{**a, **b}` as a mapping: `b`'s bindings win on key collision
since they are written second.  (CPython also keeps `a`'s key order for
colliding keys; the claims only concern the mapping and the key set, on
which this definition agrees with CPython for duplicate-free inputs.) -/
def dictMerge (a b : Dict) : Dict :=
  a.filter (fun p => !(dictContains b p.1)) ++ b

/-- One trace line, one constructor per `logger.*` call site in
`processor.py`, carrying the interpolated data. -/
inductive LogEntry where
  | debugValidating
  | errorSchemaInvalid : Dict → LogEntry
  | errorMissingKeys : Dict → LogEntry
  | debugComputingBeta : Value → LogEntry
  | infoProcessing
  | debugFinalEnriched : Dict → LogEntry

/-- The trace emitted so far, threaded explicitly. -/
abbrev Log := List LogEntry

/-- Embeds `validate_input_message`: logs, runs the external schema check
(raising `ValueError "Invalid message format"` on failure), then checks
that `symbol`, `timestamp` and `data` are all present (raising
`ValueError "Message is missing required keys"` otherwise), and returns
the very same mapping. -/
def validate_input_message (schemaOk : Dict → Bool) (message : Dict)
    (log : Log) : Except PyError Dict × Log :=
  let log := log ++ [LogEntry.debugValidating]
  if !(schemaOk message) then
    (Except.error (PyError.valueError "Invalid message format"),
      log ++ [LogEntry.errorSchemaInvalid message])
  else if !(["symbol", "timestamp", "data"].all (fun k => dictContains message k)) then
    (Except.error (PyError.valueError "Message is missing required keys"),
      log ++ [LogEntry.errorMissingKeys message])
  else
    (Except.ok message, log)

/-- Embeds `compute_beta_signal`: reads `message["symbol"]`, logs, and builds
`{"symbol": symbol, "timestamp": message["timestamp"], "beta_score": 0.85}`
(the score is the placeholder constant `0.85`). -/
def compute_beta_signal (message : Dict) (log : Log) :
    Except PyError Dict × Log :=
  match getItem message "symbol" with
  | Except.error e => (Except.error e, log)
  | Except.ok symbol =>
    let log := log ++ [LogEntry.debugComputingBeta symbol]
    match getItem message "timestamp" with
    | Except.error e => (Except.error e, log)
    | Except.ok timestamp =>
      (Except.ok [("symbol", symbol), ("timestamp", timestamp),
        ("beta_score", Value.num (0.85 : ℚ))], log)

/-- Embeds `process_message`: logs, validates, computes the beta signal, and
returns `{"symbol": validated["symbol"], "timestamp":
validated["timestamp"], "data": {**validated["data"], **beta_data}}`,
logging the enriched payload before returning. -/
def process_message (schemaOk : Dict → Bool) (raw_message : Dict)
    (log : Log) : Except PyError Dict × Log :=
  let log := log ++ [LogEntry.infoProcessing]
  match validate_input_message schemaOk raw_message log with
  | (Except.error e, log) => (Except.error e, log)
  | (Except.ok validated, log) =>
    match compute_beta_signal validated log with
    | (Except.error e, log) => (Except.error e, log)
    | (Except.ok beta_data, log) =>
      match getItem validated "symbol" with
      | Except.error e => (Except.error e, log)
      | Except.ok sym =>
        match getItem validated "timestamp" with
        | Except.error e => (Except.error e, log)
        | Except.ok ts =>
          match getItem validated "data" with
          | Except.error e => (Except.error e, log)
          | Except.ok dataVal =>
            match asDict dataVal with
            | Except.error e => (Except.error e, log)
            | Except.ok d =>
              let enriched : Dict :=
                [("symbol", sym), ("timestamp", ts),
                  ("data", Value.obj (dictMerge d beta_data))]
              (Except.ok enriched, log ++ [LogEntry.debugFinalEnriched enriched])

/-- The result component of `validate_input_message`, which does not
depend on the trace (`validate_fst` below). -/
def validateRes (schemaOk : Dict → Bool) (message : Dict) : Except PyError Dict :=
  if !(schemaOk message) then
    Except.error (PyError.valueError "Invalid message format")
  else if !(["symbol", "timestamp", "data"].all (fun k => dictContains message k)) then
    Except.error (PyError.valueError "Message is missing required keys")
  else
    Except.ok message

/-- The result component of `compute_beta_signal`. -/
def computeRes (message : Dict) : Except PyError Dict :=
  match getItem message "symbol" with
  | Except.error e => Except.error e
  | Except.ok symbol =>
    match getItem message "timestamp" with
    | Except.error e => Except.error e
    | Except.ok timestamp =>
      Except.ok [("symbol", symbol), ("timestamp", timestamp),
        ("beta_score", Value.num (0.85 : ℚ))]

/-- The result component of `process_message`. -/
def processRes (schemaOk : Dict → Bool) (raw_message : Dict) : Except PyError Dict :=
  match validateRes schemaOk raw_message with
  | Except.error e => Except.error e
  | Except.ok validated =>
    match computeRes validated with
    | Except.error e => Except.error e
    | Except.ok beta_data =>
      match getItem validated "symbol" with
      | Except.error e => Except.error e
      | Except.ok sym =>
        match getItem validated "timestamp" with
        | Except.error e => Except.error e
        | Except.ok ts =>
          match getItem validated "data" with
          | Except.error e => Except.error e
          | Except.ok dataVal =>
            match asDict dataVal with
            | Except.error e => Except.error e
            | Except.ok d =>
              Except.ok [("symbol", sym), ("timestamp", ts),
                ("data", Value.obj (dictMerge d beta_data))]

theorem validate_fst (schemaOk : Dict → Bool) (m : Dict) (log : Log) :
    (validate_input_message schemaOk m log).1 = validateRes schemaOk m := by
  unfold validate_input_message validateRes
  by_cases h1 : schemaOk m = true
  · by_cases h2 : (["symbol", "timestamp", "data"].all fun k => dictContains m k) = true
    · simp [h1, h2]
    · simp [h1, h2]
  · simp [Bool.eq_false_iff.mpr h1]

theorem compute_fst (m : Dict) (log : Log) :
    (compute_beta_signal m log).1 = computeRes m := by
  unfold compute_beta_signal computeRes
  cases hs : getItem m "symbol" with
  | error e => rfl
  | ok symbol =>
    cases ht : getItem m "timestamp" with
    | error e => rfl
    | ok timestamp => rfl

theorem process_fst (schemaOk : Dict → Bool) (raw : Dict) (log : Log) :
    (process_message schemaOk raw log).1 = processRes schemaOk raw := by
  unfold process_message processRes
  rcases hv : validate_input_message schemaOk raw (log ++ [LogEntry.infoProcessing])
    with ⟨rv, lv⟩
  have hv1 : validateRes schemaOk raw = rv := by
    rw [← validate_fst schemaOk raw (log ++ [LogEntry.infoProcessing]), hv]
  rw [hv1]
  simp only [hv]
  cases rv with
  | error e => rfl
  | ok validated =>
    dsimp only
    rcases hc : compute_beta_signal validated lv with ⟨rc, lc⟩
    have hc1 : computeRes validated = rc := by
      rw [← compute_fst validated lv, hc]
    rw [hc1]
    cases rc with
    | error e => rfl
    | ok beta_data =>
      cases getItem validated "symbol" with
      | error e => rfl
      | ok sym =>
        cases getItem validated "timestamp" with
        | error e => rfl
        | ok ts =>
          cases getItem validated "data" with
          | error e => rfl
          | ok dataVal =>
            dsimp only
            cases asDict dataVal with
            | error e => rfl
            | ok d => rfl

theorem getItem_ok_iff (d : Dict) (k : String) (v : Value) :
    getItem d k = Except.ok v ↔ dictGet? d k = some v := by
  unfold getItem
  cases dictGet? d k <;> simp

theorem asDict_ok_iff (v : Value) (d : Dict) :
    asDict v = Except.ok d ↔ v = Value.obj d := by
  cases v <;> simp [asDict]

theorem mem_dictKeys_iff_isSome (d : Dict) (k : String) :
    k ∈ dictKeys d ↔ (dictGet? d k).isSome := by
  induction d with
  | nil => simp [dictKeys, dictGet?]
  | cons p rest ih =>
    obtain ⟨k', v⟩ := p
    by_cases h : k' = k
    · subst h
      simp [dictKeys, dictGet?]
    · have hkeys : dictKeys ((k', v) :: rest) = k' :: dictKeys rest := rfl
      have hget : dictGet? ((k', v) :: rest) k = dictGet? rest k := by
        simp [dictGet?, h]
      rw [hkeys, hget, List.mem_cons]
      constructor
      · rintro (hk | hk)
        · exact absurd hk.symm h
        · exact ih.mp hk
      · intro hk
        exact Or.inr (ih.mpr hk)

theorem dictContains_true_iff (d : Dict) (k : String) :
    dictContains d k = true ↔ k ∈ dictKeys d := by
  unfold dictContains
  rw [mem_dictKeys_iff_isSome]

theorem dictContains_false_iff (d : Dict) (k : String) :
    dictContains d k = false ↔ dictGet? d k = Option.none := by
  unfold dictContains
  cases dictGet? d k <;> simp

theorem dictGet?_append_of_some (a b : Dict) (k : String) (v : Value)
    (h : dictGet? a k = some v) : dictGet? (a ++ b) k = some v := by
  induction a with
  | nil => simp [dictGet?] at h
  | cons p rest ih =>
    obtain ⟨k', w⟩ := p
    by_cases hk : k' = k
    · subst hk
      simp [dictGet?] at h ⊢
      exact h
    · simp [dictGet?, hk] at h ⊢
      exact ih h

theorem dictGet?_append_of_none (a b : Dict) (k : String)
    (h : dictGet? a k = Option.none) : dictGet? (a ++ b) k = dictGet? b k := by
  induction a with
  | nil => simp [dictGet?]
  | cons p rest ih =>
    obtain ⟨k', w⟩ := p
    by_cases hk : k' = k
    · subst hk
      simp [dictGet?] at h
    · simp [dictGet?, hk] at h ⊢
      exact ih h

theorem dictGet?_filter_of_contains (a b : Dict) (k : String)
    (h : dictContains b k = true) :
    dictGet? (a.filter fun p => !(dictContains b p.1)) k = Option.none := by
  induction a with
  | nil => simp [dictGet?]
  | cons p rest ih =>
    obtain ⟨k', w⟩ := p
    by_cases hk : k' = k
    · subst hk
      simp [List.filter, h, dictGet?, ih]
    · by_cases hb : dictContains b k' = true
      · simp [List.filter, hb, ih]
      · simp only [Bool.not_eq_true] at hb
        simp [List.filter, hb, dictGet?, hk, ih]

theorem dictGet?_filter_of_not_contains (a b : Dict) (k : String)
    (h : dictContains b k = false) :
    dictGet? (a.filter fun p => !(dictContains b p.1)) k = dictGet? a k := by
  induction a with
  | nil => simp
  | cons p rest ih =>
    obtain ⟨k', w⟩ := p
    by_cases hk : k' = k
    · subst hk
      simp [List.filter, h, dictGet?, ih]
    · by_cases hb : dictContains b k' = true
      · simp [List.filter, hb, ih, dictGet?, hk]
      · simp only [Bool.not_eq_true] at hb
        simp [List.filter, hb, dictGet?, hk, ih]

theorem dictGet?_dictMerge_of_contains (a b : Dict) (k : String)
    (h : dictContains b k = true) :
    dictGet? (dictMerge a b) k = dictGet? b k := by
  unfold dictMerge
  rw [dictGet?_append_of_none]
  exact dictGet?_filter_of_contains a b k h

theorem dictGet?_dictMerge_of_not_contains (a b : Dict) (k : String)
    (h : dictContains b k = false) :
    dictGet? (dictMerge a b) k = dictGet? a k := by
  unfold dictMerge
  cases hg : dictGet? a k with
  | none =>
    rw [dictGet?_append_of_none]
    · rw [dictContains_false_iff] at h
      exact h
    · rw [dictGet?_filter_of_not_contains a b k h]
      exact hg
  | some v =>
    apply dictGet?_append_of_some
    rw [dictGet?_filter_of_not_contains a b k h]
    exact hg

theorem mem_dictKeys_dictMerge (a b : Dict) (k : String) :
    k ∈ dictKeys (dictMerge a b) ↔ k ∈ dictKeys a ∨ k ∈ dictKeys b := by
  by_cases h : dictContains b k = true
  · rw [mem_dictKeys_iff_isSome, dictGet?_dictMerge_of_contains a b k h]
    have hb := (dictContains_true_iff b k).mp h
    have : (dictGet? b k).isSome := (mem_dictKeys_iff_isSome b k).mp hb
    simp [this, hb]
  · simp only [Bool.not_eq_true] at h
    rw [mem_dictKeys_iff_isSome, dictGet?_dictMerge_of_not_contains a b k h]
    have hb : dictGet? b k = Option.none := (dictContains_false_iff b k).mp h
    have hnb : k ∉ dictKeys b := by
      rw [mem_dictKeys_iff_isSome, hb]
      simp
    rw [← mem_dictKeys_iff_isSome]
    simp [hnb]

theorem validateRes_ok_iff (schemaOk : Dict → Bool) (m v : Dict) :
    validateRes schemaOk m = Except.ok v ↔
      schemaOk m = true ∧
      (["symbol", "timestamp", "data"].all fun k => dictContains m k) = true ∧
      v = m := by
  unfold validateRes
  by_cases h1 : schemaOk m = true
  · by_cases h2 : (["symbol", "timestamp", "data"].all fun k => dictContains m k) = true
    · simp [h1, h2, eq_comm]
    · simp [h1, h2]
  · simp [h1, Bool.eq_false_iff.mpr h1]

theorem computeRes_ok (m : Dict) (sym ts : Value)
    (hs : dictGet? m "symbol" = some sym) (ht : dictGet? m "timestamp" = some ts) :
    computeRes m = Except.ok
      [("symbol", sym), ("timestamp", ts), ("beta_score", Value.num (0.85 : ℚ))] := by
  unfold computeRes
  rw [show getItem m "symbol" = Except.ok sym from (getItem_ok_iff m "symbol" sym).mpr hs]
  rw [show getItem m "timestamp" = Except.ok ts from
    (getItem_ok_iff m "timestamp" ts).mpr ht]

theorem computeRes_ok_inv (m b : Dict) (h : computeRes m = Except.ok b) :
    ∃ sym ts, dictGet? m "symbol" = some sym ∧ dictGet? m "timestamp" = some ts ∧
      b = [("symbol", sym), ("timestamp", ts), ("beta_score", Value.num (0.85 : ℚ))] := by
  unfold computeRes at h
  cases hs : getItem m "symbol" with
  | error e => rw [hs] at h; cases h
  | ok sym =>
    rw [hs] at h
    cases ht : getItem m "timestamp" with
    | error e => rw [ht] at h; cases h
    | ok ts =>
      rw [ht] at h
      refine ⟨sym, ts, (getItem_ok_iff m "symbol" sym).mp hs,
        (getItem_ok_iff m "timestamp" ts).mp ht, ?_⟩
      cases h
      rfl

/-- The shape of every successful run of the pipeline: the schema accepted
the input, the three required keys are present (`data` bound to a nested
mapping), and the output is the rebuilt message with the merged `data`. -/
theorem processRes_ok_inv (schemaOk : Dict → Bool) (raw out : Dict)
    (h : processRes schemaOk raw = Except.ok out) :
    ∃ sym ts d, schemaOk raw = true ∧
      dictGet? raw "symbol" = some sym ∧
      dictGet? raw "timestamp" = some ts ∧
      dictGet? raw "data" = some (Value.obj d) ∧
      out = [("symbol", sym), ("timestamp", ts),
        ("data", Value.obj (dictMerge d
          [("symbol", sym), ("timestamp", ts),
            ("beta_score", Value.num (0.85 : ℚ))]))] := by
  unfold processRes at h
  split at h
  · cases h
  · rename_i validated hv
    obtain ⟨hschema, _hkeys, hvm⟩ := (validateRes_ok_iff schemaOk raw validated).mp hv
    subst hvm
    split at h
    · cases h
    · rename_i beta_data hc
      obtain ⟨sym, ts, hs, ht, hb⟩ := computeRes_ok_inv validated beta_data hc
      subst hb
      have hs' : getItem validated "symbol" = Except.ok sym :=
        (getItem_ok_iff validated "symbol" sym).mpr hs
      have ht' : getItem validated "timestamp" = Except.ok ts :=
        (getItem_ok_iff validated "timestamp" ts).mpr ht
      split at h
      · rename_i e heq
        rw [hs'] at heq
        cases heq
      · rename_i sym2 heq
        rw [hs'] at heq
        cases heq
        split at h
        · rename_i e heq2
          rw [ht'] at heq2
          cases heq2
        · rename_i ts2 heq2
          rw [ht'] at heq2
          cases heq2
          split at h
          · cases h
          · rename_i dataVal hd
            split at h
            · cases h
            · rename_i d had
              have hdv : dataVal = Value.obj d := (asDict_ok_iff dataVal d).mp had
              subst hdv
              refine ⟨sym, ts, d, hschema, hs, ht,
                (getItem_ok_iff validated "data" (Value.obj d)).mp hd, ?_⟩
              cases h
              rfl

theorem processRes_ok_of_valid (schemaOk : Dict → Bool) (raw : Dict)
    (sym ts : Value) (d : Dict)
    (hschema : schemaOk raw = true)
    (hs : dictGet? raw "symbol" = some sym)
    (ht : dictGet? raw "timestamp" = some ts)
    (hd : dictGet? raw "data" = some (Value.obj d)) :
    processRes schemaOk raw = Except.ok
      [("symbol", sym), ("timestamp", ts),
        ("data", Value.obj (dictMerge d
          [("symbol", sym), ("timestamp", ts),
            ("beta_score", Value.num (0.85 : ℚ))]))] := by
  have hkeys : (["symbol", "timestamp", "data"].all fun k => dictContains raw k) = true := by
    simp [List.all_cons, List.all_nil, dictContains, hs, ht, hd]
  have hv : validateRes schemaOk raw = Except.ok raw :=
    (validateRes_ok_iff schemaOk raw raw).mpr ⟨hschema, hkeys, rfl⟩
  have hc : computeRes raw = Except.ok
      [("symbol", sym), ("timestamp", ts), ("beta_score", Value.num (0.85 : ℚ))] :=
    computeRes_ok raw sym ts hs ht
  have hs' : getItem raw "symbol" = Except.ok sym :=
    (getItem_ok_iff raw "symbol" sym).mpr hs
  have ht' : getItem raw "timestamp" = Except.ok ts :=
    (getItem_ok_iff raw "timestamp" ts).mpr ht
  have hd' : getItem raw "data" = Except.ok (Value.obj d) :=
    (getItem_ok_iff raw "data" (Value.obj d)).mpr hd
  unfold processRes
  simp only [hv, hc, hs', ht', hd', asDict]

/-- The example input from the spec: `{"symbol": "AAPL", "timestamp":
1700000000, "data": {"price": 150.0}}`, processed under a schema that
accepts everything. -/
def exampleRaw : Dict :=
  [("symbol", Value.str "AAPL"), ("timestamp", Value.num 1700000000),
    ("data", Value.obj [("price", Value.num 150)])]

/-- The enriched message `process_message` produces on `exampleRaw`. -/
def exampleOut : Dict :=
  [("symbol", Value.str "AAPL"), ("timestamp", Value.num 1700000000),
    ("data", Value.obj
      [("price", Value.num 150), ("symbol", Value.str "AAPL"),
        ("timestamp", Value.num 1700000000),
        ("beta_score", Value.num (0.85 : ℚ))])]

/-- C1: fails on the code.  On the spec's own example input the enriched
`data` also contains the keys `symbol` and `timestamp`, which are neither
keys of the input's `data` nor equal to `beta_score`: `compute_beta_signal`
returns a three-key mapping and all of it is merged into `data`. -/
theorem c1_counterexample :
    (process_message (fun _ => true) exampleRaw []).1 = Except.ok exampleOut ∧
    dictGet? exampleRaw "data" = some (Value.obj [("price", Value.num 150)]) ∧
    dictGet? exampleOut "data" = some (Value.obj
      [("price", Value.num 150), ("symbol", Value.str "AAPL"),
        ("timestamp", Value.num 1700000000),
        ("beta_score", Value.num (0.85 : ℚ))]) ∧
    "symbol" ∉ dictKeys [("price", Value.num 150)] ∧
    "symbol" ≠ "beta_score" :=
  ⟨rfl, rfl, rfl, by decide, by decide⟩

/-- C1 (amended): for every schema predicate and every input on which
`process_message` succeeds, the key set of the output's `data` is a
superset of the key set of the input's `data`, and the keys added beyond
the input's `data` keys are exactly (those of) `symbol`, `timestamp` and
`beta_score`: the output key set is the union of the input `data` key set
with these three. -/
theorem c1_data_keys_amended (schemaOk : Dict → Bool) (raw : Dict) (log : Log)
    (out d : Dict)
    (hp : (process_message schemaOk raw log).1 = Except.ok out)
    (hd : dictGet? raw "data" = some (Value.obj d)) :
    ∃ od : Dict, dictGet? out "data" = some (Value.obj od) ∧
      ∀ k, k ∈ dictKeys od ↔
        (k ∈ dictKeys d ∨ k = "symbol" ∨ k = "timestamp" ∨ k = "beta_score") := by
  rw [process_fst] at hp
  obtain ⟨sym, ts, d', _, _, _, hd', hout⟩ := processRes_ok_inv schemaOk raw out hp
  rw [hd] at hd'
  injection hd' with hd''
  injection hd'' with hd3
  subst hd3
  subst hout
  refine ⟨dictMerge d
    [("symbol", sym), ("timestamp", ts), ("beta_score", Value.num (0.85 : ℚ))],
    by simp [dictGet?], ?_⟩
  intro k
  rw [mem_dictKeys_dictMerge]
  constructor
  · rintro (hk | hk)
    · exact Or.inl hk
    · right
      simpa [dictKeys] using hk
  · rintro (hk | hk | hk | hk)
    · exact Or.inl hk
    all_goals
      right
      simp [dictKeys, hk]

theorem c1_data_keys_amended_witness :
    (process_message (fun _ => true) exampleRaw []).1 = Except.ok exampleOut ∧
    (∃ od : Dict, dictGet? exampleOut "data" = some (Value.obj od) ∧
      ∀ k, k ∈ dictKeys od ↔
        (k ∈ dictKeys [("price", Value.num 150)] ∨
          k = "symbol" ∨ k = "timestamp" ∨ k = "beta_score")) :=
  ⟨rfl, c1_data_keys_amended (fun _ => true) exampleRaw [] exampleOut
    [("price", Value.num 150)] rfl rfl⟩

/-- C2: on every input on which processing succeeds, the output's
top-level `symbol` and `timestamp` are exactly the input's. -/
theorem c2_identity_fields_preserved (schemaOk : Dict → Bool) (raw : Dict)
    (log : Log) (out : Dict)
    (hp : (process_message schemaOk raw log).1 = Except.ok out) :
    dictGet? out "symbol" = dictGet? raw "symbol" ∧
    dictGet? out "timestamp" = dictGet? raw "timestamp" := by
  rw [process_fst] at hp
  obtain ⟨sym, ts, d, _, hs, ht, _, hout⟩ := processRes_ok_inv schemaOk raw out hp
  subst hout
  constructor
  · rw [hs]
    simp [dictGet?]
  · rw [ht]
    simp [dictGet?]

theorem c2_identity_fields_preserved_witness :
    (process_message (fun _ => true) exampleRaw []).1 = Except.ok exampleOut ∧
    (dictGet? exampleOut "symbol" = dictGet? exampleRaw "symbol" ∧
      dictGet? exampleOut "timestamp" = dictGet? exampleRaw "timestamp") :=
  ⟨rfl, c2_identity_fields_preserved (fun _ => true) exampleRaw [] exampleOut rfl⟩

/-- C3: `compute_beta_signal` returns exactly the mapping
`{"symbol": msg["symbol"], "timestamp": msg["timestamp"], "beta_score":
0.85}`, and two messages that agree on `symbol` and `timestamp` get equal
results: the `data` contents are never read. -/
theorem c3_compute_constant_signal (m1 m2 : Dict) (l1 l2 : Log) (sym ts : Value)
    (h1s : dictGet? m1 "symbol" = some sym)
    (h1t : dictGet? m1 "timestamp" = some ts)
    (h2s : dictGet? m2 "symbol" = some sym)
    (h2t : dictGet? m2 "timestamp" = some ts) :
    (compute_beta_signal m1 l1).1 = Except.ok
      [("symbol", sym), ("timestamp", ts), ("beta_score", Value.num (0.85 : ℚ))] ∧
    (compute_beta_signal m1 l1).1 = (compute_beta_signal m2 l2).1 := by
  rw [compute_fst, compute_fst, computeRes_ok m1 sym ts h1s h1t,
    computeRes_ok m2 sym ts h2s h2t]
  exact ⟨rfl, rfl⟩

theorem c3_compute_constant_signal_witness :
    (compute_beta_signal exampleRaw []).1 = Except.ok
      [("symbol", Value.str "AAPL"), ("timestamp", Value.num 1700000000),
        ("beta_score", Value.num (0.85 : ℚ))] ∧
    (compute_beta_signal exampleRaw []).1 =
      (compute_beta_signal
        [("symbol", Value.str "AAPL"), ("timestamp", Value.num 1700000000),
          ("data", Value.obj [("volume", Value.num 3)])] []).1 :=
  c3_compute_constant_signal exampleRaw
    [("symbol", Value.str "AAPL"), ("timestamp", Value.num 1700000000),
      ("data", Value.obj [("volume", Value.num 3)])]
    [] [] (Value.str "AAPL") (Value.num 1700000000) rfl rfl rfl rfl

/-- C4: on an input the schema accepts but which lacks at least one of
`symbol`, `timestamp`, `data`, `process_message` raises the missing-field
error (embedded as `ValueError "Message is missing required keys"`) and
returns no enriched message. -/
theorem c4_missing_key_error (schemaOk : Dict → Bool) (raw : Dict) (log : Log)
    (hschema : schemaOk raw = true)
    (hmiss : dictContains raw "symbol" = false ∨
      dictContains raw "timestamp" = false ∨ dictContains raw "data" = false) :
    (process_message schemaOk raw log).1 =
      Except.error (PyError.valueError "Message is missing required keys") := by
  rw [process_fst]
  have hall : (["symbol", "timestamp", "data"].all fun k => dictContains raw k) = false := by
    rcases hmiss with h | h | h <;> simp [List.all_cons, List.all_nil, h]
  unfold processRes validateRes
  rw [hschema, hall]
  rfl

theorem c4_missing_key_error_witness :
    (fun _ => true : Dict → Bool)
        [("symbol", Value.str "AAPL"), ("data", Value.obj [])] = true ∧
    dictContains [("symbol", Value.str "AAPL"), ("data", Value.obj [])] "timestamp" = false ∧
    (process_message (fun _ => true)
        [("symbol", Value.str "AAPL"), ("data", Value.obj [])] []).1 =
      Except.error (PyError.valueError "Message is missing required keys") :=
  ⟨rfl, by decide,
    c4_missing_key_error (fun _ => true)
      [("symbol", Value.str "AAPL"), ("data", Value.obj [])] [] rfl
      (Or.inr (Or.inl (by decide)))⟩

/-- C5: on an input the external schema rejects, `process_message` raises
the schema error (embedded as `ValueError "Invalid message format"`) —
with no hypothesis at all on which keys are present, so the schema failure
wins even when required keys are also missing: the schema check runs
before the key check. -/
theorem c5_schema_error_first (schemaOk : Dict → Bool) (raw : Dict) (log : Log)
    (hschema : schemaOk raw = false) :
    (process_message schemaOk raw log).1 =
      Except.error (PyError.valueError "Invalid message format") := by
  rw [process_fst]
  unfold processRes validateRes
  rw [hschema]
  rfl

theorem c5_schema_error_first_witness :
    (fun _ => false : Dict → Bool) [] = false ∧
    (process_message (fun _ => false) [] []).1 =
      Except.error (PyError.valueError "Invalid message format") :=
  ⟨rfl, c5_schema_error_first (fun _ => false) [] [] rfl⟩

/-- C6: on every input on which processing succeeds, the output's `data`
is the shallow union of the input's `data` mapping with the SignalResult
returned by `compute_beta_signal`, and on any key collision the
SignalResult's value wins (it is merged second); keys not bound by the
SignalResult keep the original `data` value. -/
theorem c6_data_shallow_union_signal_wins (schemaOk : Dict → Bool) (raw : Dict)
    (log : Log) (out d : Dict)
    (hp : (process_message schemaOk raw log).1 = Except.ok out)
    (hd : dictGet? raw "data" = some (Value.obj d)) :
    ∃ sig : Dict, (compute_beta_signal raw log).1 = Except.ok sig ∧
      dictGet? out "data" = some (Value.obj (dictMerge d sig)) ∧
      (∀ k, dictContains sig k = true →
        dictGet? (dictMerge d sig) k = dictGet? sig k) ∧
      (∀ k, dictContains sig k = false →
        dictGet? (dictMerge d sig) k = dictGet? d k) := by
  rw [process_fst] at hp
  obtain ⟨sym, ts, d', _, hs, ht, hd', hout⟩ := processRes_ok_inv schemaOk raw out hp
  rw [hd] at hd'
  injection hd' with hd''
  injection hd'' with hd3
  subst hd3
  subst hout
  refine ⟨[("symbol", sym), ("timestamp", ts), ("beta_score", Value.num (0.85 : ℚ))],
    ?_, by simp [dictGet?], ?_, ?_⟩
  · rw [compute_fst]
    exact computeRes_ok raw sym ts hs ht
  · intro k hk
    exact dictGet?_dictMerge_of_contains d _ k hk
  · intro k hk
    exact dictGet?_dictMerge_of_not_contains d _ k hk

theorem c6_data_shallow_union_signal_wins_witness :
    (process_message (fun _ => true) exampleRaw []).1 = Except.ok exampleOut ∧
    (∃ sig : Dict, (compute_beta_signal exampleRaw []).1 = Except.ok sig ∧
      dictGet? exampleOut "data" =
        some (Value.obj (dictMerge [("price", Value.num 150)] sig)) ∧
      (∀ k, dictContains sig k = true →
        dictGet? (dictMerge [("price", Value.num 150)] sig) k = dictGet? sig k) ∧
      (∀ k, dictContains sig k = false →
        dictGet? (dictMerge [("price", Value.num 150)] sig) k =
          dictGet? [("price", Value.num 150)] k)) :=
  ⟨rfl, c6_data_shallow_union_signal_wins (fun _ => true) exampleRaw []
    exampleOut [("price", Value.num 150)] rfl rfl⟩

/-- C7: whenever validation succeeds it returns the very same mapping it
was given — a gate, not a projection. -/
theorem c7_validation_is_gate (schemaOk : Dict → Bool) (m : Dict) (log : Log)
    (v : Dict)
    (h : (validate_input_message schemaOk m log).1 = Except.ok v) : v = m := by
  rw [validate_fst] at h
  exact ((validateRes_ok_iff schemaOk m v).mp h).2.2

theorem c7_validation_is_gate_witness :
    (validate_input_message (fun _ => true) exampleRaw []).1 = Except.ok exampleRaw ∧
    exampleRaw = exampleRaw :=
  ⟨rfl, c7_validation_is_gate (fun _ => true) exampleRaw [] exampleRaw rfl⟩

/-- C8: `process_message` is a deterministic function of its argument:
its result does not read the ambient trace state, so running it a second
time — even on the trace state left behind by the first run — yields the
identical result. -/
theorem c8_process_deterministic_idempotent (schemaOk : Dict → Bool)
    (raw : Dict) (log : Log) :
    (process_message schemaOk raw (process_message schemaOk raw log).2).1 =
      (process_message schemaOk raw log).1 ∧
    (process_message schemaOk raw log).1 = (process_message schemaOk raw []).1 := by
  constructor <;> rw [process_fst, process_fst]

/-- C9: the two validation failures are the only failure points.
`compute_beta_signal` succeeds on every message carrying the three
required keys, and once `validate_input_message` has succeeded (the spec's
schema contract guarantees the validated `data` is a nested mapping) the
rest of `process_message` succeeds as well. -/
theorem c9_no_other_failure_points (schemaOk : Dict → Bool) (msg raw v : Dict)
    (l1 l2 : Log)
    (hm1 : dictContains msg "symbol" = true)
    (hm2 : dictContains msg "timestamp" = true)
    (_hm3 : dictContains msg "data" = true)
    (hval : (validate_input_message schemaOk raw l2).1 = Except.ok v)
    (hdata : ∃ d, dictGet? v "data" = some (Value.obj d)) :
    (∃ r, (compute_beta_signal msg l1).1 = Except.ok r) ∧
    (∃ out, (process_message schemaOk raw l2).1 = Except.ok out) := by
  unfold dictContains at hm1 hm2
  rw [Option.isSome_iff_exists] at hm1 hm2
  obtain ⟨sym, hsym⟩ := hm1
  obtain ⟨ts, hts⟩ := hm2
  constructor
  · exact ⟨_, by rw [compute_fst]; exact computeRes_ok msg sym ts hsym hts⟩
  · rw [validate_fst] at hval
    obtain ⟨hschema, hkeys, hvm⟩ := (validateRes_ok_iff schemaOk raw v).mp hval
    subst hvm
    simp only [List.all_cons, List.all_nil, Bool.and_true, Bool.and_eq_true] at hkeys
    obtain ⟨hr1, hr2, _⟩ := hkeys
    unfold dictContains at hr1 hr2
    rw [Option.isSome_iff_exists] at hr1 hr2
    obtain ⟨rsym, hrsym⟩ := hr1
    obtain ⟨rts, hrts⟩ := hr2
    obtain ⟨d, hd⟩ := hdata
    exact ⟨_, by
      rw [process_fst]
      exact processRes_ok_of_valid schemaOk v rsym rts d hschema hrsym hrts hd⟩

theorem c9_no_other_failure_points_witness :
    dictContains exampleRaw "symbol" = true ∧
    dictContains exampleRaw "timestamp" = true ∧
    dictContains exampleRaw "data" = true ∧
    (validate_input_message (fun _ => true) exampleRaw []).1 = Except.ok exampleRaw ∧
    ((∃ r, (compute_beta_signal exampleRaw []).1 = Except.ok r) ∧
      (∃ out, (process_message (fun _ => true) exampleRaw []).1 = Except.ok out)) :=
  ⟨by decide, by decide, by decide, rfl,
    c9_no_other_failure_points (fun _ => true) exampleRaw exampleRaw exampleRaw
      [] [] (by decide) (by decide) (by decide) rfl
      ⟨[("price", Value.num 150)], rfl⟩⟩

/-- C10: every error `validate_input_message` can raise is the single
kind `ValueError`; the two failure paths differ only in the message text,
`"Invalid message format"` versus `"Message is missing required keys"`. -/
theorem c10_single_error_kind (schemaOk : Dict → Bool) (m : Dict) (log : Log)
    (e : PyError)
    (h : (validate_input_message schemaOk m log).1 = Except.error e) :
    ∃ s, e = PyError.valueError s ∧
      (s = "Invalid message format" ∨ s = "Message is missing required keys") := by
  rw [validate_fst] at h
  unfold validateRes at h
  split at h
  · cases h
    exact ⟨_, rfl, Or.inl rfl⟩
  · split at h
    · cases h
      exact ⟨_, rfl, Or.inr rfl⟩
    · cases h

theorem c10_single_error_kind_witness :
    (validate_input_message (fun _ => false) exampleRaw []).1 =
      Except.error (PyError.valueError "Invalid message format") ∧
    (∃ s, PyError.valueError "Invalid message format" = PyError.valueError s ∧
      (s = "Invalid message format" ∨ s = "Message is missing required keys")) :=
  ⟨rfl, c10_single_error_kind (fun _ => false) exampleRaw []
    (PyError.valueError "Invalid message format") rfl⟩
